import Mathlib

/-!
Shallow embedding of `config_qq_adapter.py` (MaiBotOneKey).

Text lines are modelled as `List Char`, exactly as Python's `readlines`
delivers them (trailing `'\n'` included).  Python string primitives used by
the script (`strip`, `lstrip`, `split('=')[0]`, `startswith`, `endswith`,
`replace`, `split()`, `int(...)`, list repr in an f-string) are each given a
faithful executable counterpart below.
-/

namespace MaiBot

/-- Python whitespace characters recognised by `str.strip()` / `str.split()`
(ASCII range, which is all this config file format uses). -/
def isPySpace (c : Char) : Bool :=
  c = ' ' || c = '\t' || c = '\n' || c = '\r' || c = '\x0b' || c = '\x0c'

/-- Python `str.lstrip()`. -/
def pyLstrip (l : List Char) : List Char := l.dropWhile isPySpace

/-- Python `str.rstrip()`. -/
def pyRstrip (l : List Char) : List Char := (l.reverse.dropWhile isPySpace).reverse

/-- Python `str.strip()`. -/
def pyStrip (l : List Char) : List Char := pyRstrip (pyLstrip l)

/-- Decimal digits of a natural number, accumulator style (fuel is the number
itself, always sufficient). -/
def natDigitsAux : Nat → Nat → List Char → List Char
  | 0, _, acc => acc
  | fuel + 1, n, acc =>
    if n < 10 then Char.ofNat (48 + n) :: acc
    else natDigitsAux fuel (n / 10) (Char.ofNat (48 + n % 10) :: acc)

/-- Decimal rendering of a natural number. -/
def natToChars (n : Nat) : List Char := natDigitsAux (n + 1) n []

/-- Python `repr` of an `int` (decimal, `-` sign for negatives). -/
def intToChars : Int → List Char
  | Int.ofNat n => natToChars n
  | Int.negSucc n => '-' :: natToChars (n + 1)

/-- Comma-space separated rendering of the elements of an int list. -/
def reprSepInts : List Int → List Char
  | [] => []
  | [x] => intToChars x
  | x :: y :: rest => intToChars x ++ ',' :: ' ' :: reprSepInts (y :: rest)

/-- Python list repr as produced by the f-string `f'{group_list}'`:
`[a, b, c]`, and `[]` for the empty list. -/
def pyReprIntList (xs : List Int) : List Char :=
  '[' :: (reprSepInts xs ++ [']'])

/-- The parts of the in-memory config dict that
`update_config_preserve_comments` reads: `config.get('chat', {}).get
('group_list', [])` and `config.get('chat', {}).get('private_list', [])`. -/
structure Config where
  chat_group_list : List Int
  chat_private_list : List Int
deriving DecidableEq

/-- Section-cursor update performed by one loop iteration: a line whose
stripped form starts with `[` and ends with `]` sets `in_section` to the
stripped text between the brackets; every other line leaves it unchanged. -/
def updateSec (sec : Option (List Char)) (line : List Char) : Option (List Char) :=
  if (pyStrip line).head? = some '[' ∧ (pyStrip line).getLast? = some ']' then
    some (pyStrip (((pyStrip line).drop 1).dropLast))
  else sec

/-- Python truthiness of the `in_section` variable (`None` and the empty
string are falsy). -/
def pyTruthy : Option (List Char) → Bool
  | none => false
  | some s => !s.isEmpty

/-- The replacement line `' ' * indent + f'<key> = {xs}\n'` built by the
patcher, where `indent = len(line) - len(line.lstrip())` and `keyEq` is the
literal `<key> = ` part of the f-string. -/
def replLine (keyEq : List Char) (xs : List Int) (line : List Char) : List Char :=
  List.replicate (line.length - (pyLstrip line).length) ' ' ++
    (keyEq ++ (pyReprIntList xs ++ ['\n']))

/-- One iteration of the loop body of `update_config_preserve_comments`:
given the current `in_section` value and the input line, returns the new
`in_section` value and the line appended to `new_lines`.  Mirrors the source
branch for branch (`pyStrip line` is the source's `stripped` variable,
inlined):

1. section-header lines are appended unchanged and move the cursor;
2. comment lines (stripped form starts with `#`) and blank lines are
   appended unchanged;
3. a line containing `=` while `in_section` is truthy, with
   `line.split('=')[0].strip()` equal to `group_list` / `private_list` and
   `in_section == 'chat'`, is replaced by
   `' ' * indent + f'<key> = {<value>}\n'` where
   `indent = len(line) - len(line.lstrip())`;
4. every other line is appended unchanged. -/
def patchStep (glist plist : List Int) (sec : Option (List Char)) (line : List Char) :
    Option (List Char) × List Char :=
  if (pyStrip line).head? = some '[' ∧ (pyStrip line).getLast? = some ']' then
    (some (pyStrip (((pyStrip line).drop 1).dropLast)), line)
  else if (pyStrip line).head? = some '#' ∨ pyStrip line = [] then
    (sec, line)
  else if '=' ∈ line ∧ pyTruthy sec then
    if sec = some ("chat".toList) then
      if pyStrip (line.takeWhile (· ≠ '=')) = "group_list".toList then
        (sec, replLine "group_list = ".toList glist line)
      else if pyStrip (line.takeWhile (· ≠ '=')) = "private_list".toList then
        (sec, replLine "private_list = ".toList plist line)
      else (sec, line)
    else (sec, line)
  else (sec, line)

/-- The full scan of `update_config_preserve_comments` over the raw line
buffer, threading the section cursor. -/
def patchLines (glist plist : List Int) (sec : Option (List Char)) :
    List (List Char) → List (List Char)
  | [] => []
  | line :: rest =>
    (patchStep glist plist sec line).2 ::
      patchLines glist plist (patchStep glist plist sec line).1 rest

/-- The pure content of `update_config_preserve_comments`: the list of lines
written back to the file, computed from the config dict and the original
lines (the cursor starts as `None`). -/
def update_config_preserve_comments (config : Config) (original_lines : List (List Char)) :
    List (List Char) :=
  patchLines config.chat_group_list config.chat_private_list none original_lines

/-- The section cursor in effect when the scan reaches line index `i`
(starting from cursor `none` at the top of the file). -/
def secAt (lines : List (List Char)) (i : Nat) : Option (List Char) :=
  (lines.take i).foldl updateSec none

/-- Python `str.replace(old, new)` for single-character `old`/`new`. -/
def pyReplace (l : List Char) (a b : Char) : List Char :=
  l.map fun c => if c = a then b else c

/-- Worker for `str.split()` with no argument: accumulates the current token
(reversed) and splits on runs of whitespace, discarding empty tokens. -/
def splitWsAux : List Char → List Char → List (List Char)
  | acc, [] => if acc = [] then [] else [acc.reverse]
  | acc, c :: rest =>
    if isPySpace c then
      if acc = [] then splitWsAux [] rest else acc.reverse :: splitWsAux [] rest
    else splitWsAux (c :: acc) rest

/-- Python `str.split()` with no argument. -/
def pySplitWs (l : List Char) : List (List Char) := splitWsAux [] l

/-- Digit accumulation for `int(...)`: digits, with a single `_` allowed
between two digits (Python underscore grouping); anything else fails. -/
def pyIntDigitsGo : Nat → List Char → Option Nat
  | acc, [] => some acc
  | acc, c :: rest =>
    if c.isDigit then pyIntDigitsGo (acc * 10 + (c.toNat - 48)) rest
    else if c = '_' then
      match rest with
      | [] => none
      | d :: rest2 =>
        if d.isDigit then pyIntDigitsGo (acc * 10 + (d.toNat - 48)) rest2 else none
    else none

/-- Unsigned decimal part of Python `int(...)`: at least one digit required. -/
def pyIntDigits : List Char → Option Nat
  | [] => none
  | c :: rest => if c.isDigit then pyIntDigitsGo (c.toNat - 48) rest else none

/-- Python `int(s)` on a string: strips whitespace, then an optional sign
followed by a decimal digit sequence; returns `none` where Python raises
`ValueError`. -/
def pyInt (l : List Char) : Option Int :=
  match pyStrip l with
  | '+' :: rest => (pyIntDigits rest).map Int.ofNat
  | '-' :: rest => (pyIntDigits rest).map fun n => -(n : Int)
  | s => (pyIntDigits s).map Int.ofNat

/-- The pure content of `input_qq_list`, taking the line the operator typed
at the `>>> ` prompt.  Returns the collected list together with the tokens
warned about (one warning is printed per discarded token, both for a
non-positive parse and for a `ValueError`).  Mirrors the source:
strip the input; empty means skip; replace each of `,` `，` ` ` `\t` by a
space; `split()`; `int(part.strip())` per token, appending positives. -/
def input_qq_list (typed : List Char) : List Int × List (List Char) :=
  let user_input := pyStrip typed
  if user_input = [] then ([], [])
  else
    let u1 := pyReplace user_input ',' ' '
    let u2 := pyReplace u1 '，' ' '
    let u3 := pyReplace u2 ' ' ' '
    let u4 := pyReplace u3 '\t' ' '
    let parts := pySplitWs u4
    parts.foldl
      (fun acc part =>
        match pyInt (pyStrip part) with
        | some n => if 0 < n then (acc.1 ++ [n], acc.2) else (acc.1, acc.2 ++ [part])
        | none => (acc.1, acc.2 ++ [part]))
      ([], [])

/-- Externally visible effects of one run of `configure_qq_adapter`, in
order: the config-file read, each interactive collection, and the write of
the new line buffer. -/
inductive Action where
  | read
  | collect
  | write (lines : List (List Char))
deriving DecidableEq

/-- The wizard `configure_qq_adapter`, shallowly embedded over its
environment: whether the resolved config path exists, the outcome of
`read_config_with_comments` (`none` models a raised read/parse error, which
the surrounding `try` turns into a `False` return), the two lines typed by
the operator, and whether the final write succeeds.  Returns the boolean
result together with the trace of file/console effects performed. -/
def configure_qq_adapter (pathExists : Bool) (readResult : Option (List (List Char)))
    (groupTyped privateTyped : List Char) (writeOk : Bool) : Bool × List Action :=
  if !pathExists then (false, [])
  else
    match readResult with
    | none => (false, [Action.read])
    | some original_lines =>
      let group_list := (input_qq_list groupTyped).1
      let private_list := (input_qq_list privateTyped).1
      let new_lines := update_config_preserve_comments ⟨group_list, private_list⟩ original_lines
      (writeOk, [Action.read, Action.collect, Action.collect, Action.write new_lines])

/-- The normalisation pass of `input_qq_list`: each of the four separators
`,` `，` ` ` `\t` replaced by a plain space, in source order. -/
def normalizeSeps (u : List Char) : List Char :=
  pyReplace (pyReplace (pyReplace (pyReplace u ',' ' ') '，' ' ') ' ' ' ') '\t' ' '

/-- The fate of one token of `input_qq_list`: `some n` when
`int(part.strip())` parses and is strictly positive (kept), `none` when the
token is discarded (with a console warning). -/
def tokenValue (part : List Char) : Option Int :=
  match pyInt (pyStrip part) with
  | some n => if 0 < n then some n else none
  | none => none

end MaiBot

namespace MaiBot

example : pyStrip "  # hi \n".toList = "# hi".toList := by decide
example : pyReprIntList [10, 20, 30] = "[10, 20, 30]".toList := by decide
example : pyReprIntList [] = "[]".toList := by decide
example :
    update_config_preserve_comments ⟨[10, 20, 30], []⟩
      ["[chat]\n".toList, "group_list = [1,2]\n".toList] =
    ["[chat]\n".toList, "group_list = [10, 20, 30]\n".toList] := by decide

example :
    input_qq_list "123, 456  789,abc -5".toList =
      ([123, 456, 789], ["abc".toList, "-5".toList]) := by decide

example : input_qq_list "   ".toList = ([], []) := by decide

example : pyInt "00_7".toList = some 7 := by decide
example : pyInt "7_".toList = none := by decide
example : pyInt "-5".toList = some (-5) := by decide

/-! Generic list lemmas about `takeWhile` and `dropWhile`. -/

theorem dropWhile_append_all {α : Type} {p : α → Bool} :
    ∀ {xs : List α} (ys : List α), (∀ x ∈ xs, p x = true) →
      (xs ++ ys).dropWhile p = ys.dropWhile p
  | [], _, _ => rfl
  | x :: xs, ys, h => by
    have hx : p x = true := h x (List.mem_cons_self x xs)
    rw [List.cons_append, List.dropWhile_cons_of_pos hx]
    exact dropWhile_append_all ys fun a ha => h a (List.mem_cons_of_mem x ha)

theorem takeWhile_append_all {α : Type} {p : α → Bool} :
    ∀ {xs : List α} (ys : List α), (∀ x ∈ xs, p x = true) →
      (xs ++ ys).takeWhile p = xs ++ ys.takeWhile p
  | [], _, _ => rfl
  | x :: xs, ys, h => by
    have hx : p x = true := h x (List.mem_cons_self x xs)
    rw [List.cons_append, List.takeWhile_cons_of_pos hx, List.cons_append,
      takeWhile_append_all ys fun a ha => h a (List.mem_cons_of_mem x ha)]

theorem dropWhile_append_singleton {α : Type} {p : α → Bool} {c : α} (hc : p c = false) :
    ∀ (l : List α), (l ++ [c]).dropWhile p = l.dropWhile p ++ [c]
  | [] => by simp [List.dropWhile_cons, hc]
  | x :: l => by
    by_cases hx : p x = true
    · rw [List.cons_append, List.dropWhile_cons_of_pos hx, List.dropWhile_cons_of_pos hx]
      exact dropWhile_append_singleton hc l
    · rw [List.cons_append, List.dropWhile_cons_of_neg hx, List.dropWhile_cons_of_neg hx,
        List.cons_append]

theorem dropWhile_eq_cons_head {α : Type} {p : α → Bool} :
    ∀ {l : List α} {c : α} {t : List α}, l.dropWhile p = c :: t → p c = false
  | [], _, _, h => by simp at h
  | x :: l, c, t, h => by
    by_cases hx : p x = true
    · rw [List.dropWhile_cons_of_pos hx] at h
      exact dropWhile_eq_cons_head h
    · rw [List.dropWhile_cons_of_neg hx] at h
      injection h with h1 _
      subst h1
      simpa using hx

/-! Lemmas about the Python string primitives. -/

theorem pyRstrip_cons {c : Char} (hc : isPySpace c = false) (t : List Char) :
    pyRstrip (c :: t) = c :: pyRstrip t := by
  unfold pyRstrip
  rw [List.reverse_cons, dropWhile_append_singleton hc, List.reverse_append]
  simp

theorem pyStrip_head_of_lstrip {line : List Char} {c : Char} {t : List Char}
    (h : pyLstrip line = c :: t) : pyStrip line = c :: pyRstrip t := by
  have hc : isPySpace c = false := dropWhile_eq_cons_head h
  unfold pyStrip
  rw [h, pyRstrip_cons hc]

theorem pyStrip_eq_nil_iff {line : List Char} :
    pyStrip line = [] ↔ ∀ x ∈ line, isPySpace x = true := by
  constructor
  · intro h
    cases hl : pyLstrip line with
    | nil => exact List.dropWhile_eq_nil_iff.mp hl
    | cons c t =>
      rw [pyStrip_head_of_lstrip hl] at h
      simp at h
  · intro h
    have hl : pyLstrip line = [] := List.dropWhile_eq_nil_iff.mpr h
    unfold pyStrip
    rw [hl]
    rfl

/-- The first character of the stripped line survives as the first character
of the stripped text before the first `=` (the `key` computed by the
patcher), provided it is not `=` itself. -/
theorem key_head {line : List Char} {c : Char}
    (hc : (pyStrip line).head? = some c) (hne : ¬ c = '=') :
    (pyStrip (line.takeWhile (· ≠ '='))).head? = some c := by
  cases hl : pyLstrip line with
  | nil =>
    have : pyStrip line = [] := by
      unfold pyStrip
      rw [hl]
      rfl
    rw [this] at hc
    simp at hc
  | cons d t =>
    have hd : isPySpace d = false := dropWhile_eq_cons_head hl
    have hstrip := pyStrip_head_of_lstrip hl
    rw [hstrip] at hc
    simp only [List.head?_cons, Option.some.injEq] at hc
    subst hc
    have hsplit : line.takeWhile isPySpace ++ (d :: t) = line := by
      unfold pyLstrip at hl
      rw [← hl]
      exact List.takeWhile_append_dropWhile isPySpace line
    have hw : ∀ x ∈ line.takeWhile isPySpace, (fun y => decide ¬(y = '=')) x = true := by
      intro x hx
      have hxs : isPySpace x = true := List.mem_takeWhile_imp hx
      simp only [decide_eq_true_eq]
      intro hxe
      rw [hxe] at hxs
      exact absurd hxs (by decide)
    have h1 : line.takeWhile (· ≠ '=') =
        line.takeWhile isPySpace ++ (d :: t).takeWhile (· ≠ '=') := by
      conv_lhs => rw [← hsplit]
      exact takeWhile_append_all _ hw
    have h2 : (d :: t).takeWhile (· ≠ '=') = d :: t.takeWhile (· ≠ '=') :=
      List.takeWhile_cons_of_pos (by simpa using hne)
    have h3 : pyLstrip (line.takeWhile (· ≠ '=')) = d :: t.takeWhile (· ≠ '=') := by
      rw [h1, h2]
      unfold pyLstrip
      rw [dropWhile_append_all _ fun x hx => List.mem_takeWhile_imp hx,
        List.dropWhile_cons_of_neg (by simp [hd])]
    rw [pyStrip_head_of_lstrip h3]
    rfl

/-- A line whose computed key is `group_list` or `private_list` cannot be a
section-header line. -/
theorem key_no_header {line : List Char}
    (hk : pyStrip (line.takeWhile (· ≠ '=')) = "group_list".toList ∨
          pyStrip (line.takeWhile (· ≠ '=')) = "private_list".toList) :
    ¬ ((pyStrip line).head? = some '[' ∧ (pyStrip line).getLast? = some ']') := by
  rintro ⟨ha, _⟩
  have hh := key_head ha (by decide)
  rcases hk with hk | hk <;> rw [hk] at hh <;> exact absurd hh (by decide)

/-- A line containing `=` whose computed key is `group_list` or
`private_list` is neither a comment line nor blank. -/
theorem key_no_comment {line : List Char} (he : '=' ∈ line)
    (hk : pyStrip (line.takeWhile (· ≠ '=')) = "group_list".toList ∨
          pyStrip (line.takeWhile (· ≠ '=')) = "private_list".toList) :
    ¬ ((pyStrip line).head? = some '#' ∨ pyStrip line = []) := by
  rintro (ha | ha)
  · have hh := key_head ha (by decide)
    rcases hk with hk | hk <;> rw [hk] at hh <;> exact absurd hh (by decide)
  · have hsp := pyStrip_eq_nil_iff.mp ha '=' he
    exact absurd hsp (by decide)

/-! Branch lemmas for `patchStep`. -/

theorem patchStep_header (g p : List Int) (sec : Option (List Char)) (line : List Char)
    (h : (pyStrip line).head? = some '[' ∧ (pyStrip line).getLast? = some ']') :
    patchStep g p sec line =
      (some (pyStrip (((pyStrip line).drop 1).dropLast)), line) := by
  unfold patchStep
  rw [if_pos h]

theorem patchStep_comment (g p : List Int) (sec : Option (List Char)) (line : List Char)
    (h1 : ¬ ((pyStrip line).head? = some '[' ∧ (pyStrip line).getLast? = some ']'))
    (h2 : (pyStrip line).head? = some '#' ∨ pyStrip line = []) :
    patchStep g p sec line = (sec, line) := by
  unfold patchStep
  rw [if_neg h1, if_pos h2]

theorem patchStep_snd_ne_chat (g p : List Int) (sec : Option (List Char)) (line : List Char)
    (h : ¬ sec = some ("chat".toList)) : (patchStep g p sec line).2 = line := by
  unfold patchStep
  by_cases h1 : (pyStrip line).head? = some '[' ∧ (pyStrip line).getLast? = some ']'
  · rw [if_pos h1]
  · rw [if_neg h1]
    by_cases h2 : (pyStrip line).head? = some '#' ∨ pyStrip line = []
    · rw [if_pos h2]
    · rw [if_neg h2]
      by_cases h3 : '=' ∈ line ∧ pyTruthy sec = true
      · rw [if_pos h3, if_neg h]
      · rw [if_neg h3]

theorem patchStep_group (g p : List Int) (sec : Option (List Char)) (line : List Char)
    (hs : sec = some ("chat".toList)) (he : '=' ∈ line)
    (hk : pyStrip (line.takeWhile (· ≠ '=')) = "group_list".toList) :
    patchStep g p sec line = (sec, replLine "group_list = ".toList g line) := by
  have h1 := key_no_header (Or.inl hk)
  have h2 := key_no_comment he (Or.inl hk)
  have h3 : '=' ∈ line ∧ pyTruthy sec = true := ⟨he, by rw [hs]; rfl⟩
  unfold patchStep
  rw [if_neg h1, if_neg h2, if_pos h3, if_pos hs, if_pos hk]

theorem patchStep_priv (g p : List Int) (sec : Option (List Char)) (line : List Char)
    (hs : sec = some ("chat".toList)) (he : '=' ∈ line)
    (hk : pyStrip (line.takeWhile (· ≠ '=')) = "private_list".toList) :
    patchStep g p sec line = (sec, replLine "private_list = ".toList p line) := by
  have h1 := key_no_header (Or.inr hk)
  have h2 := key_no_comment he (Or.inr hk)
  have h3 : '=' ∈ line ∧ pyTruthy sec = true := ⟨he, by rw [hs]; rfl⟩
  have hkg : ¬ pyStrip (line.takeWhile (· ≠ '=')) = "group_list".toList := by
    rw [hk]
    decide
  unfold patchStep
  rw [if_neg h1, if_neg h2, if_pos h3, if_pos hs, if_neg hkg, if_pos hk]

theorem patchStep_snd_nokey (g p : List Int) (sec : Option (List Char)) (line : List Char)
    (hkg : ¬ pyStrip (line.takeWhile (· ≠ '=')) = "group_list".toList)
    (hkp : ¬ pyStrip (line.takeWhile (· ≠ '=')) = "private_list".toList) :
    (patchStep g p sec line).2 = line := by
  unfold patchStep
  by_cases h1 : (pyStrip line).head? = some '[' ∧ (pyStrip line).getLast? = some ']'
  · rw [if_pos h1]
  · rw [if_neg h1]
    by_cases h2 : (pyStrip line).head? = some '#' ∨ pyStrip line = []
    · rw [if_pos h2]
    · rw [if_neg h2]
      by_cases h3 : '=' ∈ line ∧ pyTruthy sec = true
      · rw [if_pos h3]
        by_cases h4 : sec = some ("chat".toList)
        · rw [if_pos h4, if_neg hkg, if_neg hkp]
        · rw [if_neg h4]
      · rw [if_neg h3]

theorem patchStep_fst (g p : List Int) (sec : Option (List Char)) (line : List Char) :
    (patchStep g p sec line).1 = updateSec sec line := by
  unfold patchStep updateSec
  by_cases h1 : (pyStrip line).head? = some '[' ∧ (pyStrip line).getLast? = some ']'
  · rw [if_pos h1, if_pos h1]
  · rw [if_neg h1, if_neg h1]
    by_cases h2 : (pyStrip line).head? = some '#' ∨ pyStrip line = []
    · rw [if_pos h2]
    · rw [if_neg h2]
      by_cases h3 : '=' ∈ line ∧ pyTruthy sec = true
      · rw [if_pos h3]
        by_cases h4 : sec = some ("chat".toList)
        · rw [if_pos h4]
          by_cases h5 : pyStrip (line.takeWhile (· ≠ '=')) = "group_list".toList
          · rw [if_pos h5]
          · rw [if_neg h5]
            by_cases h6 : pyStrip (line.takeWhile (· ≠ '=')) = "private_list".toList
            · rw [if_pos h6]
            · rw [if_neg h6]
        · rw [if_neg h4]
      · rw [if_neg h3]

/-! Structure of the full scan. -/

theorem patchLines_cons (g p : List Int) (sec : Option (List Char)) (line : List Char)
    (rest : List (List Char)) :
    patchLines g p sec (line :: rest) =
      (patchStep g p sec line).2 :: patchLines g p (updateSec sec line) rest := by
  simp only [patchLines]
  rw [patchStep_fst]

theorem patchLines_length (g p : List Int) (sec : Option (List Char))
    (lines : List (List Char)) : (patchLines g p sec lines).length = lines.length := by
  induction lines generalizing sec with
  | nil => rfl
  | cons l rest ih => simp only [patchLines, List.length_cons, ih]

/-- Index-wise description of the scan: the output line at index `i` is the
input line at `i` transformed by one `patchStep` under the section cursor
accumulated over the first `i` lines. -/
theorem patchLines_getElem? (g p : List Int) (lines : List (List Char)) :
    ∀ (sec : Option (List Char)) (i : Nat),
      (patchLines g p sec lines)[i]? =
        (lines[i]?).map fun l => (patchStep g p ((lines.take i).foldl updateSec sec) l).2 := by
  induction lines with
  | nil => intro sec i; simp [patchLines]
  | cons l rest ih =>
    intro sec i
    cases i with
    | zero => simp [patchLines_cons]
    | succ n =>
      simp only [patchLines_cons, List.getElem?_cons_succ, List.take_succ_cons,
        List.foldl_cons]
      exact ih (updateSec sec l) n

/-- The same fact for the top-level patch, phrased with `secAt`. -/
theorem update_getElem? (config : Config) (lines : List (List Char)) (i : Nat) :
    (update_config_preserve_comments config lines)[i]? =
      (lines[i]?).map fun l =>
        (patchStep config.chat_group_list config.chat_private_list (secAt lines i) l).2 :=
  patchLines_getElem? _ _ lines none i

/-! Further branch lemmas. -/

theorem patchStep_no_eq (g p : List Int) (sec : Option (List Char)) (line : List Char)
    (h1 : ¬ ((pyStrip line).head? = some '[' ∧ (pyStrip line).getLast? = some ']'))
    (h2 : ¬ ((pyStrip line).head? = some '#' ∨ pyStrip line = []))
    (h3 : ¬ ('=' ∈ line ∧ pyTruthy sec = true)) :
    patchStep g p sec line = (sec, line) := by
  unfold patchStep
  rw [if_neg h1, if_neg h2, if_neg h3]

theorem patchStep_ne_chat (g p : List Int) (sec : Option (List Char)) (line : List Char)
    (h1 : ¬ ((pyStrip line).head? = some '[' ∧ (pyStrip line).getLast? = some ']'))
    (h2 : ¬ ((pyStrip line).head? = some '#' ∨ pyStrip line = []))
    (h3 : '=' ∈ line ∧ pyTruthy sec = true)
    (h4 : ¬ sec = some ("chat".toList)) :
    patchStep g p sec line = (sec, line) := by
  unfold patchStep
  rw [if_neg h1, if_neg h2, if_pos h3, if_neg h4]

theorem patchStep_nokey (g p : List Int) (sec : Option (List Char)) (line : List Char)
    (h1 : ¬ ((pyStrip line).head? = some '[' ∧ (pyStrip line).getLast? = some ']'))
    (h2 : ¬ ((pyStrip line).head? = some '#' ∨ pyStrip line = []))
    (h3 : '=' ∈ line ∧ pyTruthy sec = true)
    (h4 : sec = some ("chat".toList))
    (h5 : ¬ pyStrip (line.takeWhile (· ≠ '=')) = "group_list".toList)
    (h6 : ¬ pyStrip (line.takeWhile (· ≠ '=')) = "private_list".toList) :
    patchStep g p sec line = (sec, line) := by
  unfold patchStep
  rw [if_neg h1, if_neg h2, if_pos h3, if_pos h4, if_neg h5, if_neg h6]

theorem patchStep_snd_comment (g p : List Int) (sec : Option (List Char)) (line : List Char)
    (h : (pyStrip line).head? = some '#' ∨ pyStrip line = []) :
    (patchStep g p sec line).2 = line := by
  have h1 : ¬ ((pyStrip line).head? = some '[' ∧ (pyStrip line).getLast? = some ']') := by
    rintro ⟨ha, _⟩
    rcases h with h | h
    · have := h.symm.trans ha
      simp at this
    · rw [h] at ha
      simp at ha
  rw [patchStep_comment g p sec line h1 h]

theorem updateSec_of_not_header (sec : Option (List Char)) (line : List Char)
    (h : ¬ ((pyStrip line).head? = some '[' ∧ (pyStrip line).getLast? = some ']')) :
    updateSec sec line = sec := by
  unfold updateSec
  rw [if_neg h]

/-! The replacement line and its shape. -/

theorem pyStrip_cons_head {c : Char} (z : List Char) (hc : isPySpace c = false) :
    (pyStrip (c :: z)).head? = some c := by
  have hl : pyLstrip (c :: z) = c :: z := by
    unfold pyLstrip
    rw [List.dropWhile_cons_of_neg (by simp [hc])]
  rw [pyStrip_head_of_lstrip hl]
  rfl

theorem pyLstrip_replicate_cons {n : Nat} {c : Char} {z : List Char}
    (hc : isPySpace c = false) :
    pyLstrip (List.replicate n ' ' ++ c :: z) = c :: z := by
  unfold pyLstrip
  rw [dropWhile_append_all _ fun x hx => by rw [List.eq_of_mem_replicate hx]; rfl,
    List.dropWhile_cons_of_neg (by simp [hc])]

theorem indent_replicate_cons {n : Nat} {c : Char} {z : List Char}
    (hc : isPySpace c = false) :
    (List.replicate n ' ' ++ c :: z).length -
      (pyLstrip (List.replicate n ' ' ++ c :: z)).length = n := by
  rw [pyLstrip_replicate_cons hc]
  simp

theorem pyStrip_replicate_cons {n : Nat} {c : Char} {z : List Char}
    (hc : isPySpace c = false) :
    pyStrip (List.replicate n ' ' ++ c :: z) = pyStrip (c :: z) := by
  unfold pyStrip
  rw [pyLstrip_replicate_cons hc]
  unfold pyLstrip
  rw [List.dropWhile_cons_of_neg (by simp [hc])]

theorem takeWhile_eq_stop (pre w : List Char) (hpre : ∀ x ∈ pre, ¬ x = '=') :
    (pre ++ '=' :: w).takeWhile (· ≠ '=') = pre := by
  rw [takeWhile_append_all _ (by simpa using hpre),
    List.takeWhile_cons_of_neg (by simp)]
  simp

theorem replLine_indent (keyEq : List Char) (c : Char) (kt : List Char)
    (hk : keyEq = c :: kt) (hc : isPySpace c = false) (xs : List Int) (line : List Char) :
    (replLine keyEq xs line).length - (pyLstrip (replLine keyEq xs line)).length =
      line.length - (pyLstrip line).length := by
  unfold replLine
  rw [hk]
  exact indent_replicate_cons hc

theorem replLine_strip_head (keyEq : List Char) (c : Char) (kt : List Char)
    (hk : keyEq = c :: kt) (hc : isPySpace c = false) (xs : List Int) (line : List Char) :
    (pyStrip (replLine keyEq xs line)).head? = some c := by
  unfold replLine
  rw [hk]
  show (pyStrip (List.replicate (line.length - (pyLstrip line).length) ' ' ++
    c :: (kt ++ (pyReprIntList xs ++ ['\n'])))).head? = some c
  rw [pyStrip_replicate_cons hc]
  exact pyStrip_cons_head _ hc

theorem replLine_mem_eq (keyEq : List Char) (xs : List Int) (line : List Char)
    (hm : '=' ∈ keyEq) : '=' ∈ replLine keyEq xs line := by
  unfold replLine
  simp [hm]

theorem replLine_of_replLine (keyEq : List Char) (c : Char) (kt : List Char)
    (hk : keyEq = c :: kt) (hc : isPySpace c = false) (xs : List Int) (line : List Char) :
    replLine keyEq xs (replLine keyEq xs line) = replLine keyEq xs line := by
  show List.replicate ((replLine keyEq xs line).length -
      (pyLstrip (replLine keyEq xs line)).length) ' ' ++
    (keyEq ++ (pyReprIntList xs ++ ['\n'])) = replLine keyEq xs line
  rw [replLine_indent keyEq c kt hk hc xs line]
  rfl

theorem replLine_key_group (g : List Int) (line : List Char) :
    pyStrip ((replLine "group_list = ".toList g line).takeWhile (· ≠ '=')) =
      "group_list".toList := by
  have hlit : "group_list = ".toList = "group_list ".toList ++ '=' :: [' '] := by decide
  have hshape : replLine "group_list = ".toList g line =
      (List.replicate (line.length - (pyLstrip line).length) ' ' ++ "group_list ".toList) ++
        '=' :: (' ' :: (pyReprIntList g ++ ['\n'])) := by
    unfold replLine
    rw [hlit]
    simp [List.append_assoc]
  rw [hshape, takeWhile_eq_stop _ _ ?hpre]
  · have hcons : "group_list ".toList = 'g' :: "roup_list ".toList := by decide
    rw [hcons, pyStrip_replicate_cons (by decide)]
    decide
  case hpre =>
    intro x hx
    rcases List.mem_append.mp hx with hx | hx
    · rw [List.eq_of_mem_replicate hx]
      decide
    · have hall : ∀ y ∈ "group_list ".toList, ¬ y = '=' := by decide
      exact hall x hx

theorem replLine_key_priv (p : List Int) (line : List Char) :
    pyStrip ((replLine "private_list = ".toList p line).takeWhile (· ≠ '=')) =
      "private_list".toList := by
  have hlit : "private_list = ".toList = "private_list ".toList ++ '=' :: [' '] := by decide
  have hshape : replLine "private_list = ".toList p line =
      (List.replicate (line.length - (pyLstrip line).length) ' ' ++ "private_list ".toList) ++
        '=' :: (' ' :: (pyReprIntList p ++ ['\n'])) := by
    unfold replLine
    rw [hlit]
    simp [List.append_assoc]
  rw [hshape, takeWhile_eq_stop _ _ ?hpre]
  · have hcons : "private_list ".toList = 'p' :: "rivate_list ".toList := by decide
    rw [hcons, pyStrip_replicate_cons (by decide)]
    decide
  case hpre =>
    intro x hx
    rcases List.mem_append.mp hx with hx | hx
    · rw [List.eq_of_mem_replicate hx]
      decide
    · have hall : ∀ y ∈ "private_list ".toList, ¬ y = '=' := by decide
      exact hall x hx

theorem replLine_not_header (keyEq : List Char) (c : Char) (kt : List Char)
    (hk : keyEq = c :: kt) (hc : isPySpace c = false) (hcb : ¬ c = '[')
    (xs : List Int) (line : List Char) :
    ¬ ((pyStrip (replLine keyEq xs line)).head? = some '[' ∧
       (pyStrip (replLine keyEq xs line)).getLast? = some ']') := by
  rintro ⟨ha, _⟩
  rw [replLine_strip_head keyEq c kt hk hc xs line] at ha
  exact hcb (Option.some.inj ha)

/-! The fixpoint property of `patchStep`, and idempotence of the scan. -/

theorem patchStep_fix_group (g p : List Int) (line : List Char) :
    patchStep g p (some ("chat".toList)) (replLine "group_list = ".toList g line) =
      (some ("chat".toList), replLine "group_list = ".toList g line) := by
  have he : '=' ∈ replLine "group_list = ".toList g line :=
    replLine_mem_eq _ _ _ (by decide)
  rw [patchStep_group g p _ _ rfl he (replLine_key_group g line),
    replLine_of_replLine "group_list = ".toList 'g' "roup_list = ".toList (by decide)
      (by decide) g line]

theorem patchStep_fix_priv (g p : List Int) (line : List Char) :
    patchStep g p (some ("chat".toList)) (replLine "private_list = ".toList p line) =
      (some ("chat".toList), replLine "private_list = ".toList p line) := by
  have he : '=' ∈ replLine "private_list = ".toList p line :=
    replLine_mem_eq _ _ _ (by decide)
  rw [patchStep_priv g p _ _ rfl he (replLine_key_priv p line),
    replLine_of_replLine "private_list = ".toList 'p' "rivate_list = ".toList (by decide)
      (by decide) p line]

theorem patchStep_fix (g p : List Int) (sec : Option (List Char)) (line : List Char) :
    (patchStep g p sec (patchStep g p sec line).2).2 = (patchStep g p sec line).2 ∧
    updateSec sec (patchStep g p sec line).2 = updateSec sec line := by
  by_cases h1 : (pyStrip line).head? = some '[' ∧ (pyStrip line).getLast? = some ']'
  · have h := patchStep_header g p sec line h1
    rw [h]
    refine ⟨?_, rfl⟩
    show (patchStep g p sec line).2 = line
    rw [h]
  by_cases h2 : (pyStrip line).head? = some '#' ∨ pyStrip line = []
  · have h := patchStep_comment g p sec line h1 h2
    rw [h]
    refine ⟨?_, rfl⟩
    show (patchStep g p sec line).2 = line
    rw [h]
  by_cases h3 : '=' ∈ line ∧ pyTruthy sec = true
  · by_cases h4 : sec = some ("chat".toList)
    · by_cases h5 : pyStrip (line.takeWhile (· ≠ '=')) = "group_list".toList
      · subst h4
        rw [patchStep_group g p _ line rfl h3.1 h5]
        refine ⟨?_, ?_⟩
        · show (patchStep g p _ (replLine "group_list = ".toList g line)).2 = _
          rw [patchStep_fix_group g p line]
        · show updateSec _ (replLine "group_list = ".toList g line) = _
          rw [updateSec_of_not_header _ _
              (replLine_not_header _ 'g' "roup_list = ".toList (by decide) (by decide)
                (by decide) g line),
            updateSec_of_not_header _ _ (key_no_header (Or.inl h5))]
      by_cases h6 : pyStrip (line.takeWhile (· ≠ '=')) = "private_list".toList
      · subst h4
        rw [patchStep_priv g p _ line rfl h3.1 h6]
        refine ⟨?_, ?_⟩
        · show (patchStep g p _ (replLine "private_list = ".toList p line)).2 = _
          rw [patchStep_fix_priv g p line]
        · show updateSec _ (replLine "private_list = ".toList p line) = _
          rw [updateSec_of_not_header _ _
              (replLine_not_header _ 'p' "rivate_list = ".toList (by decide) (by decide)
                (by decide) p line),
            updateSec_of_not_header _ _ (key_no_header (Or.inr h6))]
      · have h := patchStep_nokey g p sec line h1 h2 h3 h4 h5 h6
        rw [h]
        refine ⟨?_, rfl⟩
        show (patchStep g p sec line).2 = line
        rw [h]
    · have h := patchStep_ne_chat g p sec line h1 h2 h3 h4
      rw [h]
      refine ⟨?_, rfl⟩
      show (patchStep g p sec line).2 = line
      rw [h]
  · have h := patchStep_no_eq g p sec line h1 h2 h3
    rw [h]
    refine ⟨?_, rfl⟩
    show (patchStep g p sec line).2 = line
    rw [h]

/-- Idempotence of the scan underlying `update_config_preserve_comments`. -/
theorem patchLines_idem (g p : List Int) (lines : List (List Char)) :
    ∀ sec, patchLines g p sec (patchLines g p sec lines) = patchLines g p sec lines := by
  induction lines with
  | nil => intro sec; rfl
  | cons l rest ih =>
    intro sec
    rw [patchLines_cons, patchLines_cons]
    obtain ⟨hfix, hsec⟩ := patchStep_fix g p sec l
    rw [hfix, hsec, ih]

/-! The fold inside the collector. -/

theorem qq_foldl (parts : List (List Char)) :
    ∀ acc : List Int × List (List Char),
      parts.foldl
        (fun acc part =>
          match pyInt (pyStrip part) with
          | some n => if 0 < n then (acc.1 ++ [n], acc.2) else (acc.1, acc.2 ++ [part])
          | none => (acc.1, acc.2 ++ [part]))
        acc =
      (acc.1 ++ parts.filterMap tokenValue,
       acc.2 ++ parts.filter fun part => (tokenValue part).isNone) := by
  induction parts with
  | nil => intro acc; simp
  | cons part rest ih =>
    intro acc
    rw [List.foldl_cons, ih]
    cases hv : pyInt (pyStrip part) with
    | none =>
      have ht : tokenValue part = none := by
        unfold tokenValue
        rw [hv]
      simp [hv, ht, List.filterMap_cons, List.filter_cons]
    | some n =>
      by_cases hn : 0 < n
      · have ht : tokenValue part = some n := by
          simp [tokenValue, hv, hn]
        simp [hv, hn, ht, List.filterMap_cons, List.filter_cons]
      · have ht : tokenValue part = none := by
          simp [tokenValue, hv, hn]
        simp [hv, hn, ht, List.filterMap_cons, List.filter_cons]

/-- Closed form of `input_qq_list` on non-skipped input: the kept values are
exactly the positive parses of the tokens, in token order, and the warned
tokens are exactly the discarded ones, in token order. -/
theorem input_qq_list_spec (typed : List Char) (h : ¬ pyStrip typed = []) :
    input_qq_list typed =
      ((pySplitWs (normalizeSeps (pyStrip typed))).filterMap tokenValue,
       (pySplitWs (normalizeSeps (pyStrip typed))).filter
         fun part => (tokenValue part).isNone) := by
  unfold input_qq_list normalizeSeps
  rw [if_neg h, qq_foldl]
  simp

/-- The leading-whitespace run of a replacement line is exactly the
space-only indent of the original line. -/
theorem replLine_takeWhile_space (keyEq : List Char) (c : Char) (kt : List Char)
    (hk : keyEq = c :: kt) (hc : isPySpace c = false) (xs : List Int) (line : List Char) :
    (replLine keyEq xs line).takeWhile isPySpace =
      List.replicate (line.length - (pyLstrip line).length) ' ' := by
  unfold replLine
  rw [hk, takeWhile_append_all _ fun x hx => by rw [List.eq_of_mem_replicate hx]; rfl]
  show List.replicate (line.length - (pyLstrip line).length) ' ' ++
    (c :: (kt ++ (pyReprIntList xs ++ ['\n']))).takeWhile isPySpace = _
  rw [List.takeWhile_cons_of_neg (by simp [hc])]
  simp

/-! Theorems for the claims. -/

/-- C1: For every original line list and every configuration document, the
patch produces exactly one output line per input line (same line count, same
positions, hence original order), and every line that is blank (whitespace
only) or whose trimmed form begins with `#` appears byte-identical at the
same position in the output. -/
theorem claim_C1 (config : Config) (lines : List (List Char)) :
    (update_config_preserve_comments config lines).length = lines.length ∧
    ∀ (i : Nat) (l : List Char), lines[i]? = some l →
      ((pyStrip l).head? = some '#' ∨ pyStrip l = []) →
      (update_config_preserve_comments config lines)[i]? = some l := by
  refine ⟨patchLines_length _ _ _ _, ?_⟩
  intro i l hl hcb
  simp only [update_getElem?, hl, Option.map_some']
  rw [patchStep_snd_comment _ _ _ _ hcb]

/-- Witness for C1 at a concrete file: a comment line and a blank line
survive byte-identical, at their positions. -/
theorem claim_C1_witness :
    (["# c\n".toList, "  \n".toList, "[chat]\n".toList, "group_list = []\n".toList][0]? =
      some ("# c\n".toList)) ∧
    ((pyStrip ("# c\n".toList)).head? = some '#' ∨ pyStrip ("# c\n".toList) = []) ∧
    (update_config_preserve_comments ⟨[1], [2]⟩
      ["# c\n".toList, "  \n".toList, "[chat]\n".toList, "group_list = []\n".toList])[0]? =
      some ("# c\n".toList) :=
  ⟨by decide, by decide,
    (claim_C1 ⟨[1], [2]⟩
      ["# c\n".toList, "  \n".toList, "[chat]\n".toList, "group_list = []\n".toList]).2
      0 ("# c\n".toList) (by decide) (by decide)⟩

/-- C2: a line inside the `[chat]` section whose key (text before the first
`=`, trimmed) is `group_list` or `private_list` is replaced by
`<indent><key> = <value>` where the indent has the same count of leading
whitespace characters as the original and the value is the bracketed,
comma-separated integer rendering; the empty list renders as `[]`; and the
concrete example from the spec. -/
theorem claim_C2 (config : Config) (lines : List (List Char)) (i : Nat) (l : List Char)
    (hl : lines[i]? = some l) (hsec : secAt lines i = some ("chat".toList))
    (he : '=' ∈ l) :
    (pyStrip (l.takeWhile (· ≠ '=')) = "group_list".toList →
      (update_config_preserve_comments config lines)[i]? =
        some (List.replicate (l.length - (pyLstrip l).length) ' ' ++
          ("group_list = ".toList ++ (pyReprIntList config.chat_group_list ++ ['\n'])))) ∧
    (pyStrip (l.takeWhile (· ≠ '=')) = "private_list".toList →
      (update_config_preserve_comments config lines)[i]? =
        some (List.replicate (l.length - (pyLstrip l).length) ' ' ++
          ("private_list = ".toList ++ (pyReprIntList config.chat_private_list ++ ['\n'])))) ∧
    pyReprIntList [] = "[]".toList ∧
    update_config_preserve_comments ⟨[10, 20, 30], []⟩
        ["[chat]\n".toList, "group_list = [1,2]\n".toList] =
      ["[chat]\n".toList, "group_list = [10, 20, 30]\n".toList] := by
  refine ⟨?_, ?_, by decide, by decide⟩
  · intro hk
    simp only [update_getElem?, hl, Option.map_some']
    rw [patchStep_group _ _ _ _ hsec he hk]
    rfl
  · intro hk
    simp only [update_getElem?, hl, Option.map_some']
    rw [patchStep_priv _ _ _ _ hsec he hk]
    rfl

/-- Witness for C2 at the spec's own example file. -/
theorem claim_C2_witness :
    (["[chat]\n".toList, "group_list = [1,2]\n".toList][1]? =
      some ("group_list = [1,2]\n".toList)) ∧
    secAt ["[chat]\n".toList, "group_list = [1,2]\n".toList] 1 = some ("chat".toList) ∧
    '=' ∈ "group_list = [1,2]\n".toList ∧
    pyStrip (("group_list = [1,2]\n".toList).takeWhile (· ≠ '=')) = "group_list".toList ∧
    (update_config_preserve_comments ⟨[10, 20, 30], []⟩
      ["[chat]\n".toList, "group_list = [1,2]\n".toList])[1]? =
      some ("group_list = [10, 20, 30]\n".toList) :=
  ⟨by decide, by decide, by decide, by decide,
    (((claim_C2 ⟨[10, 20, 30], []⟩ ["[chat]\n".toList, "group_list = [1,2]\n".toList]
      1 ("group_list = [1,2]\n".toList) (by decide) (by decide) (by decide)).1
      (by decide)).trans (by decide))⟩

/-- C3: a line whose key is literally `group_list` or `private_list` but
whose enclosing section is not `chat` (a different section, or no section
yet) is copied to the output unchanged. -/
theorem claim_C3 (config : Config) (lines : List (List Char)) (i : Nat) (l : List Char)
    (hl : lines[i]? = some l)
    (hkey : pyStrip (l.takeWhile (· ≠ '=')) = "group_list".toList ∨
            pyStrip (l.takeWhile (· ≠ '=')) = "private_list".toList)
    (hsec : ¬ secAt lines i = some ("chat".toList)) :
    (update_config_preserve_comments config lines)[i]? = some l := by
  simp only [update_getElem?, hl, Option.map_some']
  rw [patchStep_snd_ne_chat _ _ _ _ hsec]

/-- Witness for C3: a `group_list` line under `[other]` is untouched. -/
theorem claim_C3_witness :
    (["[other]\n".toList, "group_list = [1]\n".toList][1]? =
      some ("group_list = [1]\n".toList)) ∧
    pyStrip (("group_list = [1]\n".toList).takeWhile (· ≠ '=')) = "group_list".toList ∧
    ¬ secAt ["[other]\n".toList, "group_list = [1]\n".toList] 1 = some ("chat".toList) ∧
    (update_config_preserve_comments ⟨[9], [9]⟩
      ["[other]\n".toList, "group_list = [1]\n".toList])[1]? =
      some ("group_list = [1]\n".toList) :=
  ⟨by decide, by decide, by decide,
    claim_C3 ⟨[9], [9]⟩ ["[other]\n".toList, "group_list = [1]\n".toList]
      1 ("group_list = [1]\n".toList) (by decide) (Or.inl (by decide)) (by decide)⟩

/-- C4: the collect operation returns `([], [])` on whitespace-only input;
otherwise the kept identifiers are exactly the tokens parsing to strictly
positive integers, in typed order without deduplication, and every other
token is warned about; and the spec's concrete example. -/
theorem claim_C4 :
    (∀ typed, pyStrip typed = [] → input_qq_list typed = ([], [])) ∧
    (∀ typed, ¬ pyStrip typed = [] →
      (input_qq_list typed).1 =
        (pySplitWs (normalizeSeps (pyStrip typed))).filterMap tokenValue ∧
      (input_qq_list typed).2 =
        (pySplitWs (normalizeSeps (pyStrip typed))).filter
          fun part => (tokenValue part).isNone) ∧
    input_qq_list "123, 456  789,abc -5".toList =
      ([123, 456, 789], ["abc".toList, "-5".toList]) ∧
    tokenValue "abc".toList = none ∧ tokenValue "-5".toList = none := by
  refine ⟨?_, ?_, by decide, by decide, by decide⟩
  · intro typed h
    unfold input_qq_list
    rw [if_pos h]
  · intro typed h
    rw [input_qq_list_spec typed h]
    exact ⟨rfl, rfl⟩

/-- Witness for C4: the empty-skip case and a mixed token case, concretely. -/
theorem claim_C4_witness :
    pyStrip "  ".toList = [] ∧ input_qq_list "  ".toList = ([], []) ∧
    ¬ pyStrip "12 abc".toList = [] ∧ (input_qq_list "12 abc".toList).1 = [12] :=
  ⟨by decide, claim_C4.1 "  ".toList (by decide), by decide,
    ((claim_C4.2.1 "12 abc".toList (by decide)).1).trans (by decide)⟩

/-- C5: when no line of the file inside the `chat` section carries one of
the two target keys, the patch output equals the input line for line (the
collected lists are dropped: the output does not depend on `config` at
all). -/
theorem claim_C5 (config : Config) (lines : List (List Char))
    (h : ∀ i l, lines[i]? = some l → secAt lines i = some ("chat".toList) →
      ¬ pyStrip (l.takeWhile (· ≠ '=')) = "group_list".toList ∧
      ¬ pyStrip (l.takeWhile (· ≠ '=')) = "private_list".toList) :
    update_config_preserve_comments config lines = lines := by
  apply List.ext_getElem?
  intro i
  rw [update_getElem?]
  cases hl : lines[i]? with
  | none => rfl
  | some l =>
    simp only [Option.map_some']
    by_cases hsec : secAt lines i = some ("chat".toList)
    · obtain ⟨h5, h6⟩ := h i l hl hsec
      rw [patchStep_snd_nokey _ _ _ _ h5 h6]
    · rw [patchStep_snd_ne_chat _ _ _ _ hsec]

/-- Witness for C5: a chat section without the target keys round-trips
unchanged even though the config carries fresh non-empty lists. -/
theorem claim_C5_witness :
    update_config_preserve_comments ⟨[1], [2]⟩
      ["[chat]\n".toList, "name = 1\n".toList] =
    ["[chat]\n".toList, "name = 1\n".toList] := by
  apply claim_C5
  intro i l hl hsec
  have hi : i < 2 := by
    by_contra hge
    rw [List.getElem?_eq_none (by simpa using Nat.le_of_not_lt hge)] at hl
    exact Option.noConfusion hl
  interval_cases i
  · exact absurd hsec (by decide)
  · simp only [List.getElem?_cons_succ, List.getElem?_cons_zero, Option.some.injEq] at hl
    subst hl
    exact ⟨by decide, by decide⟩

/-- C6: the patch operation is idempotent — re-patching its own output with
the same configuration reproduces that output byte for byte. -/
theorem claim_C6 (config : Config) (lines : List (List Char)) :
    update_config_preserve_comments config (update_config_preserve_comments config lines) =
      update_config_preserve_comments config lines :=
  patchLines_idem _ _ lines none

/-- Counterexample to C7 as stated: a comment sharing the line of a target
key assignment under `[chat]` occurs in the input but in no output line —
the whole line is replaced and the inline comment text is destroyed. -/
theorem claim_C7_counterexample :
    update_config_preserve_comments ⟨[1, 2], []⟩
        ["[chat]\n".toList, "group_list = [1,2]  # keep me\n".toList] =
      ["[chat]\n".toList, "group_list = [1, 2]\n".toList] ∧
    ("# keep me".toList <:+: "group_list = [1,2]  # keep me\n".toList) ∧
    ¬ ("# keep me".toList <:+: "[chat]\n".toList) ∧
    ¬ ("# keep me".toList <:+: "group_list = [1, 2]\n".toList) := by
  refine ⟨by decide, by decide, by decide, by decide⟩

/-- C7 (amended): every full-line comment — a line whose trimmed form begins
with `#` — is preserved byte-identical at the same position; an inline
comment on a replaced target-key line is not preserved. -/
theorem claim_C7_amended (config : Config) (lines : List (List Char)) (i : Nat)
    (l : List Char) (hl : lines[i]? = some l) (hc : (pyStrip l).head? = some '#') :
    (update_config_preserve_comments config lines)[i]? = some l := by
  simp only [update_getElem?, hl, Option.map_some']
  rw [patchStep_snd_comment _ _ _ _ (Or.inl hc)]

/-- Witness for the amended C7 at a concrete comment line. -/
theorem claim_C7_witness :
    (["[chat]\n".toList, "# group_list = [1]\n".toList][1]? =
      some ("# group_list = [1]\n".toList)) ∧
    (pyStrip ("# group_list = [1]\n".toList)).head? = some '#' ∧
    (update_config_preserve_comments ⟨[5], []⟩
      ["[chat]\n".toList, "# group_list = [1]\n".toList])[1]? =
      some ("# group_list = [1]\n".toList) :=
  ⟨by decide, by decide,
    claim_C7_amended ⟨[5], []⟩ ["[chat]\n".toList, "# group_list = [1]\n".toList]
      1 ("# group_list = [1]\n".toList) (by decide) (by decide)⟩

/-- C8: when the resolved config path does not exist the wizard returns
failure with an empty effect trace — nothing is read, collected, or
written, so in particular no file is created at the path. -/
theorem claim_C8 (readResult : Option (List (List Char))) (groupTyped privateTyped : List Char)
    (writeOk : Bool) :
    configure_qq_adapter false readResult groupTyped privateTyped writeOk = (false, []) :=
  rfl

/-- C9: a target line under `[chat]` is rewritten with an indent consisting
only of space characters whose count equals the count of leading whitespace
characters (tabs included) of the original line; concretely a tab-indented
line comes back space-indented. -/
theorem claim_C9 (config : Config) (lines : List (List Char)) (i : Nat) (l : List Char)
    (hl : lines[i]? = some l) (hsec : secAt lines i = some ("chat".toList)) (he : '=' ∈ l)
    (hk : pyStrip (l.takeWhile (· ≠ '=')) = "group_list".toList ∨
          pyStrip (l.takeWhile (· ≠ '=')) = "private_list".toList) :
    ((update_config_preserve_comments config lines)[i]?).map
        (fun ol => ol.takeWhile isPySpace) =
      some (List.replicate (l.length - (pyLstrip l).length) ' ') ∧
    (update_config_preserve_comments ⟨[3], []⟩
      ["[chat]\n".toList, "\tgroup_list = []\n".toList])[1]? =
      some (" group_list = [3]\n".toList) := by
  refine ⟨?_, by decide⟩
  simp only [update_getElem?, hl, Option.map_some']
  rcases hk with hk | hk
  · rw [patchStep_group _ _ _ _ hsec he hk,
      replLine_takeWhile_space _ 'g' "roup_list = ".toList (by decide) (by decide)]
  · rw [patchStep_priv _ _ _ _ hsec he hk,
      replLine_takeWhile_space _ 'p' "rivate_list = ".toList (by decide) (by decide)]

/-- Witness for C9 at a tab-indented target line. -/
theorem claim_C9_witness :
    (["[chat]\n".toList, "\tgroup_list = []\n".toList][1]? =
      some ("\tgroup_list = []\n".toList)) ∧
    secAt ["[chat]\n".toList, "\tgroup_list = []\n".toList] 1 = some ("chat".toList) ∧
    ((update_config_preserve_comments ⟨[3], []⟩
        ["[chat]\n".toList, "\tgroup_list = []\n".toList])[1]?).map
      (fun ol => ol.takeWhile isPySpace) = some [' '] :=
  ⟨by decide, by decide,
    ((claim_C9 ⟨[3], []⟩ ["[chat]\n".toList, "\tgroup_list = []\n".toList]
      1 ("\tgroup_list = []\n".toList) (by decide) (by decide) (by decide)
      (Or.inl (by decide))).1).trans (by decide)⟩

/-- C10: every occurrence of a target key inside `[chat]` is rewritten (not
just the first), always to the same new value, with the total line count
preserved; concretely, two `group_list` lines both become `[7]`. -/
theorem claim_C10 (config : Config) (lines : List (List Char)) :
    (update_config_preserve_comments config lines).length = lines.length ∧
    (∀ (i : Nat) (l : List Char), lines[i]? = some l →
      secAt lines i = some ("chat".toList) → '=' ∈ l →
      pyStrip (l.takeWhile (· ≠ '=')) = "group_list".toList →
      (update_config_preserve_comments config lines)[i]? =
        some (replLine "group_list = ".toList config.chat_group_list l)) ∧
    (∀ (i : Nat) (l : List Char), lines[i]? = some l →
      secAt lines i = some ("chat".toList) → '=' ∈ l →
      pyStrip (l.takeWhile (· ≠ '=')) = "private_list".toList →
      (update_config_preserve_comments config lines)[i]? =
        some (replLine "private_list = ".toList config.chat_private_list l)) ∧
    update_config_preserve_comments ⟨[7], [8]⟩
        ["[chat]\n".toList, "group_list = [1]\n".toList, "private_list = []\n".toList,
          "group_list = [2]\n".toList] =
      ["[chat]\n".toList, "group_list = [7]\n".toList, "private_list = [8]\n".toList,
        "group_list = [7]\n".toList] := by
  refine ⟨patchLines_length _ _ _ _, ?_, ?_, by decide⟩
  · intro i l hl hsec he hk
    simp only [update_getElem?, hl, Option.map_some']
    rw [patchStep_group _ _ _ _ hsec he hk]
  · intro i l hl hsec he hk
    simp only [update_getElem?, hl, Option.map_some']
    rw [patchStep_priv _ _ _ _ hsec he hk]

/-- Witness for C10 at the second occurrence of `group_list` (index 3). -/
theorem claim_C10_witness :
    (["[chat]\n".toList, "group_list = [1]\n".toList, "private_list = []\n".toList,
        "group_list = [2]\n".toList][3]? = some ("group_list = [2]\n".toList)) ∧
    secAt ["[chat]\n".toList, "group_list = [1]\n".toList, "private_list = []\n".toList,
        "group_list = [2]\n".toList] 3 = some ("chat".toList) ∧
    (update_config_preserve_comments ⟨[7], [8]⟩
      ["[chat]\n".toList, "group_list = [1]\n".toList, "private_list = []\n".toList,
        "group_list = [2]\n".toList])[3]? = some ("group_list = [7]\n".toList) :=
  ⟨by decide, by decide,
    ((claim_C10 ⟨[7], [8]⟩
      ["[chat]\n".toList, "group_list = [1]\n".toList, "private_list = []\n".toList,
        "group_list = [2]\n".toList]).2.1 3 ("group_list = [2]\n".toList)
      (by decide) (by decide) (by decide) (by decide)).trans (by decide)⟩

end MaiBot
